import Mathlib

/-!
Preview subsystem of the file manager backend.

A shallow embedding of `preview.go` (icon resolver, preview cache manager, external preview
proxy, local thumbnailer) together with the library functions it relies on
(`strconv.Atoi`, `path/filepath` on Unix, the sanitising regular expression).

Conventions of the embedding:

* a Go `string` is a byte sequence; it is modelled as `List Char`, one element per byte;
* a Go run-time panic (slice bounds out of range) is an explicit result;
* the filesystem, the storage drive, the render service and the imaging library are
  explicit inputs; every call made to a collaborator is recorded in a trace;
* a filesystem call can be refused by the operating system; whether it is refused is an input
  too, also for `os.Mkdir` and `ioutil.WriteFile`, whose errors the handler discards.
-/

namespace Filemanager

/-- Go `string`: a sequence of bytes, one list element per byte. -/
abbrev Str := List Char

/-! ## Go library functions used by `preview.go` -/

/-- Go slice expression `s[lo:]`; `none` is the run-time panic of an out-of-range bound. -/
def sliceFrom (s : Str) (lo : Nat) : Option Str :=
  if lo ≤ s.length then some (s.drop lo) else none

/-- Go slice expression `s[:hi]`; `none` is the run-time panic of an out-of-range bound. -/
def sliceTo (s : Str) (hi : Int) : Option Str :=
  if 0 ≤ hi ∧ hi ≤ (s.length : Int) then some (s.take hi.toNat) else none

/-- Value of a run of decimal digits. -/
def digitsValue (ds : Str) : Nat :=
  ds.foldl (fun n c => n * 10 + (c.toNat - 48)) 0

/-- Go `strconv.Atoi` on a 64-bit platform: an optional sign, then at least one decimal digit and
nothing else, the value within the range of `int`; `none` stands for a non-nil error. -/
def Atoi (s : Str) : Option Int :=
  let neg : Bool := s.head? = some '-'
  let ds : Str := if s.head? = some '-' ∨ s.head? = some '+' then s.drop 1 else s
  if ds = [] ∨ ds.all Char.isDigit = false then none
  else
    let v : Int := if neg then -(digitsValue ds : Int) else (digitsValue ds : Int)
    if -(2 : Int) ^ 63 ≤ v ∧ v < (2 : Int) ^ 63 then some v else none

/-- Split a path at every `/`. -/
def splitSlash : Str → List Str
  | [] => [[]]
  | c :: cs =>
    match splitSlash cs with
    | [] => [[c]]
    | h :: t => if c = '/' then [] :: h :: t else (c :: h) :: t

/-- One iteration of the element loop of `filepath.Clean`; `out` is the stack of elements kept so
far, topmost first. -/
def cleanStep (rooted : Bool) (out : List Str) (e : Str) : List Str :=
  if e = [] ∨ e = ['.'] then out
  else if e = ['.', '.'] then
    match out with
    | top :: rest => if top = ['.', '.'] then e :: out else rest
    | [] => if rooted then [] else [e]
  else e :: out

/-- Go `filepath.Clean` on Unix. -/
def Clean (path : Str) : Str :=
  if path = [] then ['.']
  else
    let rooted : Bool := path.head? = some '/'
    let out := ((splitSlash path).foldl (cleanStep rooted) []).reverse
    let body := List.intercalate ['/'] out
    if rooted then '/' :: body else if out = [] then ['.'] else body

/-- Go `filepath.Join` on Unix: leading empty elements are dropped, the others are joined with
`/` and the result is cleaned; no non-empty element gives the empty string. -/
def Join (elem : List Str) : Str :=
  match elem.dropWhile (fun e => e = []) with
  | [] => []
  | rest => Clean (List.intercalate ['/'] rest)

/-- Go `filepath.Base` on Unix. -/
def Base (path : Str) : Str :=
  if path = [] then ['.']
  else
    let p := (path.reverse.dropWhile (fun c => c = '/')).reverse
    let last := (p.reverse.takeWhile (fun c => c ≠ '/')).reverse
    if last = [] then ['/'] else last

/-- Backwards scan of `filepath.Ext`: `rest` is the unread part of the path, last byte first,
`acc` the bytes already passed. -/
def extScan : Str → Str → Str
  | [], _ => []
  | c :: cs, acc => if c = '/' then [] else if c = '.' then c :: acc else extScan cs (c :: acc)

/-- Go `filepath.Ext`: the suffix starting at the last `.` of the last path element, or empty. -/
def Ext (path : Str) : Str := extScan path.reverse []

/-- The pattern `[^A-Za-z0-9.]` of `getIconURL`: the bytes it does not match. -/
def iconChar (c : Char) : Bool := c.isAlphanum || c == '.'

/-- The call `re.ReplaceAllString(s, "")` of `getIconURL`. -/
def sanitize (s : Str) : Str := s.filter iconChar

/-! ## Filesystem -/

/-- A filesystem entry: a regular file with its content, or a directory. -/
inductive Node where
  | file (content : Str)
  | dir
  deriving DecidableEq, Repr

/-- The filesystem: the entries that exist, by path; the first entry for a path is the current
one. -/
structure FS where
  nodes : List (Str × Node)
  deriving DecidableEq, Repr

/-- The entry at a path, if there is one. -/
def FS.find (fs : FS) (p : Str) : Option Node := fs.nodes.lookup p

/-- Go `os.Stat` followed by `Size()`: `none` stands for a non-nil error (the path does not
exist); a directory reports the size of one block. -/
def FS.stat (fs : FS) (p : Str) : Option Nat :=
  match fs.find p with
  | some (Node.file content) => some content.length
  | some Node.dir => some 4096
  | none => none

/-- The filesystem once the file at `p` has been created or truncated and `content` written to
it; used where the create and the write are known to have succeeded. -/
def FS.store (fs : FS) (p : Str) (content : Str) : FS :=
  ⟨(p, Node.file content) :: fs.nodes⟩

/-- Go `os.Mkdir` with its error discarded, as at line 94. `ok` tells whether the operating
system accepts the call (it refuses when the parent is missing or unwritable). The directory
appears only when the call is accepted and the path is free; otherwise nothing changes. -/
def FS.mkdir (fs : FS) (ok : Bool) (p : Str) : FS :=
  if ok = true ∧ fs.find p = none then ⟨(p, Node.dir) :: fs.nodes⟩ else fs

/-- Go `ioutil.WriteFile` with its error discarded, as at line 110. `ok` tells whether the file
can be opened for writing (it cannot when its directory is missing, is a regular file or is
unwritable); a refused call leaves the filesystem unchanged. -/
def FS.writeFile (fs : FS) (ok : Bool) (p : Str) (content : Str) : FS :=
  if ok = true then fs.store p content else fs

/-! ## Data model -/

/-- The fields of `wfs.File` that `preview.go` reads. -/
structure File where
  Name : Str
  Size : Int
  Type_ : Str
  deriving DecidableEq, Repr

/-- The fields of the global `Config` that `preview.go` reads. `Root` is read by
`getFilePreview` although `AppConfig` in `server.go` does not declare it; it is taken as given. -/
structure AppConfig where
  Preview : Str
  Root : Str
  deriving DecidableEq, Repr

/-- The query values `id`, `width` and `height` of a `GET /preview` request
(`r.URL.Query().Get` gives the empty string for a missing value). -/
structure Query where
  id : Str
  width : Str
  height : Str
  deriving DecidableEq, Repr

/-- What the handler does with the response writer. `panic` is a Go run-time panic reaching the
router (the `Recoverer` middleware turns it into an internal server error). -/
inductive Response where
  | text (status : Nat) (body : String)
  | serveFile (name : Str)
  | panic
  deriving DecidableEq, Repr

/-- The non-nil `error` values that reach `getFilePreview`. -/
inductive Err where
  | stat
  | newRequest
  | transport
  | service (statusCode : Nat) (body : Str)
  | create
  | copy
  | decode
  | encode
  deriving DecidableEq, Repr

/-- Calls made to the collaborators, in program order. The stream of `external` is the value
returned by `drive.Read`, `none` being the nil stream of a failed read. -/
inductive Event where
  | info (id : Str)
  | read (id : Str)
  | external (file : Option Str) (preview name width height : Str)
  | image (source : Str) (width height : Int) (preview : Str)
  deriving DecidableEq, Repr

/-- Result of `http.NewRequest` and `client.Do` against the render service. -/
inductive HttpOutcome where
  | badRequest
  | transport
  | response (statusCode : Nat) (contentType : Str) (body : Str)
  deriving DecidableEq, Repr

/-- One run of the external render: what the HTTP exchange gives, whether `os.Create` of the
destination succeeds, and whether `io.Copy` fails (after having written that many bytes). -/
structure ExternalRun where
  http : HttpOutcome
  createOk : Bool
  copyStop : Option Nat
  deriving DecidableEq, Repr

/-- One run of the imaging library: `imaging.Open` fails, or `imaging.Save` fails (having left
the given content at the destination, if it created it), or the encoded thumbnail is saved. -/
inductive ImagingRun where
  | openFailed
  | saveFailed (left : Option Str)
  | saved (jpeg : Str)
  deriving DecidableEq, Repr

/-- The collaborators of the handler: the storage drive, the render service with the destination
filesystem, the imaging library, and the operating system's answer to the two calls whose error
the handler discards: `mkdirOk p` tells whether `os.Mkdir(p)` is accepted and `writeFileOk p`
whether `ioutil.WriteFile(p)` is. -/
structure Env where
  info : Str → Option File
  read : Str → Option Str
  render : Str → Option Str → Str → Str → Str → ExternalRun
  imaging : Str → Int → Int → ImagingRun
  mkdirOk : Str → Bool
  writeFileOk : Str → Bool

/-! ## `preview.go` -/

/-- Source function `getIconURL`. -/
def getIconURL (fs : FS) (size ftype name : Str) : Str :=
  let size := sanitize size
  let name := "icons/".toList ++ size ++ "/".toList ++ sanitize name
  let ftype := "icons/".toList ++ size ++ "/types/".toList ++ sanitize ftype
  match fs.stat name with
  | none => ftype ++ Ext name
  | some _ => name

/-- Source function `serveIconPreview`: the slice `filepath.Ext(info.Name)[1:]` panics when the
name has no extension. -/
def serveIconPreview (fs : FS) (info : File) : Response :=
  match sliceFrom (Ext info.Name) 1 with
  | none => Response.panic
  | some e => Response.serveFile (getIconURL fs "big".toList info.Type_ (e ++ ".svg".toList))

/-- Source function `getImagePreview`: the extension and error it returns, and the filesystem it
leaves. -/
def getImagePreview (env : Env) (fs : FS) (source : Str) (width height : Int) (preview : Str) :
    (Str × Option Err) × FS :=
  match env.imaging source width height with
  | ImagingRun.openFailed => (([], some Err.decode), fs)
  | ImagingRun.saveFailed none => (([], some Err.encode), fs)
  | ImagingRun.saveFailed (some left) =>
    (([], some Err.encode), fs.store (preview ++ ".jpg".toList) left)
  | ImagingRun.saved jpeg => ((".jpg".toList, none), fs.store (preview ++ ".jpg".toList) jpeg)

/-- Source function `getExternalPreview`: the extension and error it returns, and the filesystem
it leaves. The multipart producer goroutine is not modelled; the render service sees the
stream, the name and the dimensions. -/
def getExternalPreview (Config : AppConfig) (env : Env) (fs : FS) (file : Option Str)
    (preview name width height : Str) : (Str × Option Err) × FS :=
  let run := env.render Config.Preview file name width height
  match run.http with
  | HttpOutcome.badRequest => (([], some Err.newRequest), fs)
  | HttpOutcome.transport => (([], some Err.transport), fs)
  | HttpOutcome.response statusCode contentType body =>
    if statusCode ≠ 200 then (([], some (Err.service statusCode body)), fs)
    else
      let ext := if contentType = "image/png".toList then ".png".toList else ".jpg".toList
      if run.createOk = false then (([], some Err.create), fs)
      else
        match run.copyStop with
        | none => ((ext, none), fs.store (preview ++ ext) body)
        | some n => ((ext, some Err.copy), fs.store (preview ++ ext) (body.take n))

/-- The paths computed by lines 70-73 of `getFilePreview`. -/
structure Key where
  source : Str
  name : Str
  folder : Str
  preview : Str
  deriving DecidableEq, Repr

/-- Lines 70-73 of `getFilePreview`; `none` is the panic of the slice
`id[:len(id)-len(name)]`. -/
def cacheKey (root id widthStr heightStr : Str) : Option Key :=
  let source := Join [root, id]
  let name := Base source
  match sliceTo id ((id.length : Int) - (name.length : Int)) with
  | none => none
  | some dir =>
    let folder := Join [root, dir, ".preview".toList]
    let preview := Join [folder, name ++ "___".toList ++ widthStr ++ "x".toList ++ heightStr]
    some ⟨source, name, folder, preview⟩

/-- The state of the handler after lines 93-106: the variables `ext` and `err`, the filesystem
and the collaborator calls made. -/
structure Gen where
  ext : Str
  err : Option Err
  fs : FS
  trace : List Event

/-- Lines 93-106 of `getFilePreview`, entered after both probes failed: `ext` is `".png"` and
`err` is the error of the second `os.Stat`, and they keep these values when no renderer runs. -/
def generate (Config : AppConfig) (env : Env) (fs : FS) (q : Query) (width height : Int)
    (info : File) (k : Key) : Gen :=
  let fs1 := fs.mkdir (env.mkdirOk k.folder) k.folder
  if Config.Preview ≠ [] then
    let file := env.read q.id
    let r := getExternalPreview Config env fs1 file k.preview k.name q.width q.height
    ⟨r.1.1, r.1.2, r.2, [Event.read q.id, Event.external file k.preview k.name q.width q.height]⟩
  else if info.Type_ = "image".toList then
    let r := getImagePreview env fs1 k.source width height k.preview
    ⟨r.1.1, r.1.2, r.2, [Event.image k.source width height k.preview]⟩
  else ⟨".png".toList, some Err.stat, fs1, []⟩

/-- What a run of the handler amounts to: the response, the filesystem left behind and the
collaborator calls made. -/
structure Outcome where
  resp : Response
  fs : FS
  trace : List Event

/-- Lines 70-115 of `getFilePreview`: cache key, cache lookup, generation, persistence. -/
def servePreview (Config : AppConfig) (env : Env) (fs : FS) (q : Query) (width height : Int)
    (info : File) : Outcome :=
  match cacheKey Config.Root q.id q.width q.height with
  | none => ⟨Response.panic, fs, [Event.info q.id]⟩
  | some k =>
    match fs.stat (k.preview ++ ".jpg".toList) with
    | some size =>
      if size = 0 then ⟨serveIconPreview fs info, fs, [Event.info q.id]⟩
      else ⟨Response.serveFile (k.preview ++ ".jpg".toList), fs, [Event.info q.id]⟩
    | none =>
      match fs.stat (k.preview ++ ".png".toList) with
      | some size =>
        if size = 0 then ⟨serveIconPreview fs info, fs, [Event.info q.id]⟩
        else ⟨Response.serveFile (k.preview ++ ".png".toList), fs, [Event.info q.id]⟩
      | none =>
        let g := generate Config env fs q width height info k
        match g.err with
        | some _ =>
          let fs2 := g.fs.writeFile (env.writeFileOk (k.preview ++ ".jpg".toList))
            (k.preview ++ ".jpg".toList) []
          ⟨serveIconPreview fs2 info, fs2, Event.info q.id :: g.trace⟩
        | none => ⟨Response.serveFile (k.preview ++ g.ext), g.fs, Event.info q.id :: g.trace⟩

/-- Source function `getFilePreview`. -/
def getFilePreview (Config : AppConfig) (env : Env) (fs : FS) (q : Query) : Outcome :=
  if Config.Preview = "none".toList then ⟨Response.text 500 "Previews not configured", fs, []⟩
  else
    match Atoi q.width with
    | none => ⟨Response.text 500 "incorrect width value", fs, []⟩
    | some width =>
      match Atoi q.height with
      | none => ⟨Response.text 500 "incorrect height value", fs, []⟩
      | some height =>
        match env.info q.id with
        | none => ⟨Response.text 500 "Access denied", fs, [Event.info q.id]⟩
        | some info =>
          if info.Size > 50 * 1000 * 1000 ∨ width > 2000 ∨ height > 2000 then
            ⟨serveIconPreview fs info, fs, [Event.info q.id]⟩
          else servePreview Config env fs q width height info

/-- Whether a trace contains a call of a renderer. -/
def invokesRenderer (t : List Event) : Bool :=
  t.any fun e =>
    match e with
    | Event.external _ _ _ _ _ => true
    | Event.image _ _ _ _ => true
    | _ => false

/-- The property of the icon route: the cleaned path lies strictly below `icons/` and none of
its elements is `..`. -/
def insideIcons (p : Str) : Bool :=
  (Clean p).take 6 == "icons/".toList && decide (6 < (Clean p).length) &&
    !(splitSlash (Clean p)).contains "..".toList

/-- The path served as fallback icon for a file whose name has an extension. -/
def iconPath (fs : FS) (info : File) : Str :=
  getIconURL fs "big".toList info.Type_ ((Ext info.Name).drop 1 ++ ".svg".toList)

/-! ## Concrete configurations and collaborators used in the evaluations -/

/-- Local-render deployment: no render endpoint. -/
def cfgLocal : AppConfig := ⟨[], "/data".toList⟩

/-- External-render deployment. -/
def cfgExternal : AppConfig := ⟨"http://render:3201/preview".toList, "/data".toList⟩

/-- Previews switched off. -/
def cfgNone : AppConfig := ⟨"none".toList, "/data".toList⟩

/-- A drive that knows every id as the given file and can read it; the render service is
unreachable and the imaging library cannot decode; directories and files can be created. -/
def envOf (info : File) : Env :=
  ⟨fun _ => some info, fun _ => some "content".toList,
    fun _ _ _ _ _ => ⟨HttpOutcome.transport, true, none⟩, fun _ _ _ => ImagingRun.openFailed,
    fun _ => true, fun _ => true⟩

/-- A drive that denies every lookup and every read. -/
def envDenied : Env :=
  ⟨fun _ => none, fun _ => none,
    fun _ _ _ _ _ => ⟨HttpOutcome.transport, true, none⟩, fun _ _ _ => ImagingRun.openFailed,
    fun _ => true, fun _ => true⟩

/-- A drive that knows the file but fails to read it; the render service is unreachable. -/
def envUnreadable (info : File) : Env :=
  ⟨fun _ => some info, fun _ => none,
    fun _ _ _ _ _ => ⟨HttpOutcome.transport, true, none⟩, fun _ _ _ => ImagingRun.openFailed,
    fun _ => true, fun _ => true⟩

/-- A drive that knows and reads the file, with a render service that answers every request with
the given response, the destination being writable. -/
def envService (info : File) (statusCode : Nat) (contentType body : Str) : Env :=
  ⟨fun _ => some info, fun _ => some "content".toList,
    fun _ _ _ _ _ => ⟨HttpOutcome.response statusCode contentType body, true, none⟩,
    fun _ _ _ => ImagingRun.openFailed, fun _ => true, fun _ => true⟩

/-- As `envService`, on a filesystem that refuses to create directories and files (as it does
below a path that is a regular file). -/
def envBlocked (info : File) (statusCode : Nat) (contentType body : Str) : Env :=
  ⟨fun _ => some info, fun _ => some "content".toList,
    fun _ _ _ _ _ => ⟨HttpOutcome.response statusCode contentType body, false, none⟩,
    fun _ _ _ => ImagingRun.openFailed, fun _ => false, fun _ => false⟩

/-- A filesystem with a regular file where the preview folder of `/data` should be. -/
def fsBlocked : FS := ⟨[("/data/.preview".toList, Node.file "x".toList)]⟩

/-- A file without extension. -/
def makefile : File := ⟨"Makefile".toList, 1200, "code".toList⟩

/-- A document. -/
def docPdf : File := ⟨"doc.pdf".toList, 52000, "document".toList⟩

/-- An image. -/
def photoPng : File := ⟨"photo.png".toList, 52000, "image".toList⟩

/-- The empty filesystem. -/
def fsEmpty : FS := ⟨[]⟩

/-- A filesystem holding a zero-length placeholder for `/Makefile` at 100x100. -/
def fsPlaceholder : FS := ⟨[("/data/.preview/Makefile___100x100.jpg".toList, Node.file [])]⟩

/-- Request for `/Makefile` at 100x100. -/
def qMakefile : Query := ⟨"/Makefile".toList, "100".toList, "100".toList⟩

/-- Request for `/doc.pdf` at 200x200. -/
def qDoc : Query := ⟨"/doc.pdf".toList, "200".toList, "200".toList⟩

/-- Request for `/photo.png` with the given dimensions. -/
def qPhoto (width height : String) : Query := ⟨"/photo.png".toList, width.toList, height.toList⟩

/-- The cache path of `qDoc` under the root `/data`. -/
def keyDoc : Str := "/data/.preview/doc.pdf___200x200".toList

/-- A positive cache entry for a cache key: a non-empty file at `preview + ".jpg"` or at
`preview + ".png"`. -/
def positiveEntry (fs : FS) (preview : Str) : Bool :=
  (match fs.find (preview ++ ".jpg".toList) with
    | some (Node.file content) => decide (content ≠ [])
    | _ => false) ||
  (match fs.find (preview ++ ".png".toList) with
    | some (Node.file content) => decide (content ≠ [])
    | _ => false)

/-- A negative placeholder for a cache key: a zero-length file at `preview + ".jpg"`. -/
def negativePlaceholder (fs : FS) (preview : Str) : Bool :=
  fs.find (preview ++ ".jpg".toList) == some (Node.file [])

/-- The paths of `qDoc` under the root `/data`. -/
def keyOfDoc : Key :=
  ⟨"/data/doc.pdf".toList, "doc.pdf".toList, "/data/.preview".toList,
    "/data/.preview/doc.pdf___200x200".toList⟩

/-! ## Basic facts -/

theorem stat_store_same (fs : FS) (p c : Str) : (fs.store p c).stat p = some c.length := by
  simp [FS.stat, FS.find, FS.store, List.lookup]

theorem find_store_same (fs : FS) (p c : Str) :
    (fs.store p c).find p = some (Node.file c) := by
  simp [FS.find, FS.store, List.lookup]

theorem writeFile_accepted (fs : FS) (p c : Str) : fs.writeFile true p c = fs.store p c := by
  simp [FS.writeFile]

theorem serveIconPreview_of_ext (fs : FS) (info : File) (h : Ext info.Name ≠ []) :
    serveIconPreview fs info = Response.serveFile (iconPath fs info) := by
  have hlen : 1 ≤ (Ext info.Name).length := by
    cases hE : Ext info.Name with
    | nil => exact absurd hE h
    | cons c cs => simp
  simp [serveIconPreview, sliceFrom, hlen, iconPath]

theorem serveIconPreview_no_ext (fs : FS) (info : File) (h : Ext info.Name = []) :
    serveIconPreview fs info = Response.panic := by
  simp [serveIconPreview, sliceFrom, h]

theorem getFilePreview_inRange (Config : AppConfig) (env : Env) (fs : FS) (q : Query)
    (width height : Int) (info : File) (hcfg : Config.Preview ≠ "none".toList)
    (hw : Atoi q.width = some width) (hh : Atoi q.height = some height)
    (hinfo : env.info q.id = some info) (hs : info.Size ≤ 50 * 1000 * 1000)
    (hwr : width ≤ 2000) (hhr : height ≤ 2000) :
    getFilePreview Config env fs q = servePreview Config env fs q width height info := by
  have hg : ¬ (info.Size > 50 * 1000 * 1000 ∨ width > 2000 ∨ height > 2000) := by omega
  simp only [getFilePreview, if_neg hcfg, hw, hh, hinfo, if_neg hg]

/-! ## Icon resolver -/

/-- C1: the path returned by `getIconURL` does not always stay below `icons/`. For the route
values size `.-.`, type `x`, name `y` the sanitised size is `..`, and whatever the filesystem
holds, the returned path (`icons/../y` or `icons/../types/x`) cleans to a path outside the icons
directory. -/
theorem getIconURL_leaves_icons (fs : FS) :
    insideIcons (getIconURL fs ".-.".toList "x".toList "y".toList) = false ∧
      "..".toList ∈ splitSlash (getIconURL fs ".-.".toList "x".toList "y".toList) := by
  simp only [getIconURL]
  split <;> decide

/-- C2: `serveIconPreview` is not total. For the file `Makefile` (no extension) the slice
`filepath.Ext(info.Name)[1:]` panics, so a request past parsing and metadata lookup (here one
caught by the dimension guard) ends in a panic instead of a served path. -/
theorem getFilePreview_panics_without_extension :
    Ext makefile.Name = [] ∧ serveIconPreview fsEmpty makefile = Response.panic ∧
      (getFilePreview cfgLocal (envOf makefile) fsEmpty
        ⟨"/Makefile".toList, "3000".toList, "100".toList⟩).resp = Response.panic := by
  decide

/-! ## Cache key -/

/-- C8: the cache key is neither injective nor always defined. Under root `/data` the ids `/a/`
and `/a/a` denote different sources but get the same cache path, and for the id `/` the slice
`id[:len(id)-len(name)]` panics. -/
theorem cacheKey_collides_and_panics :
    (cacheKey "/data".toList "/a/".toList "1".toList "1".toList).map Key.preview
        = some "/data/a/.preview/a___1x1".toList ∧
      (cacheKey "/data".toList "/a/a".toList "1".toList "1".toList).map Key.preview
        = some "/data/a/.preview/a___1x1".toList ∧
      Join ["/data".toList, "/a/".toList] = "/data/a".toList ∧
      Join ["/data".toList, "/a/a".toList] = "/data/a/a".toList ∧
      cacheKey "/data".toList "/".toList "1".toList "1".toList = none := by
  decide

/-! ## Storage failures -/

/-- C9: a failed `drive.Read` is not surfaced. With a render endpoint configured, a cache miss
and a read that fails, the handler calls the external renderer with the nil stream and answers
with the fallback icon, not with `500 Access denied`. -/
theorem getFilePreview_ignores_read_failure :
    (getFilePreview cfgExternal (envUnreadable docPdf) fsEmpty qDoc).trace
        = [Event.info qDoc.id, Event.read qDoc.id,
            Event.external none keyDoc "doc.pdf".toList "200".toList "200".toList] ∧
      (getFilePreview cfgExternal (envUnreadable docPdf) fsEmpty qDoc).resp
        = Response.serveFile "icons/big/types/document.svg".toList := by
  decide

/-! ## Generation failure -/

/-- C7: on a generation failure the icon is not always served. For `/Makefile` without render
endpoint (type `code`, so no renderer applies) the cache misses, no renderer runs and the
zero-length placeholder is written, but the handler then panics in `serveIconPreview`. -/
theorem getFilePreview_failure_panics_without_extension :
    (getFilePreview cfgLocal (envOf makefile) fsEmpty qMakefile).resp = Response.panic ∧
      (getFilePreview cfgLocal (envOf makefile) fsEmpty qMakefile).fs.stat
        "/data/.preview/Makefile___100x100.jpg".toList = some 0 ∧
      invokesRenderer (getFilePreview cfgLocal (envOf makefile) fsEmpty qMakefile).trace
        = false := by
  decide

/-! ## Parameter validation -/

/-- C4, as stated, fails: the width value `0` is not a positive integer, yet it passes
validation; the handler goes on to the storage lookup, the renderer and the filesystem. -/
theorem getFilePreview_accepts_zero_width :
    Atoi "0".toList = some 0 ∧ Atoi "-5".toList = some (-5) ∧
      (getFilePreview cfgLocal (envOf photoPng) fsEmpty (qPhoto "0" "100")).resp
        = Response.serveFile "icons/big/types/image.svg".toList ∧
      invokesRenderer (getFilePreview cfgLocal (envOf photoPng) fsEmpty (qPhoto "0" "100")).trace
        = true ∧
      (getFilePreview cfgLocal (envOf photoPng) fsEmpty (qPhoto "0" "100")).fs ≠ fsEmpty := by
  decide

/-- C4, amended: when previews are not switched off, a width value that `strconv.Atoi` rejects
gives `500 incorrect width value`, and otherwise a height value that `strconv.Atoi` rejects gives
`500 incorrect height value`; in both cases the filesystem is unchanged and no collaborator
(storage lookup, read, renderer) is called. -/
theorem getFilePreview_validation (Config : AppConfig) (env : Env) (fs : FS) (q : Query)
    (hcfg : Config.Preview ≠ "none".toList)
    (hbad : Atoi q.width = none ∨ Atoi q.height = none) :
    (getFilePreview Config env fs q).resp
        = Response.text 500
            (if Atoi q.width = none then "incorrect width value" else "incorrect height value") ∧
      (getFilePreview Config env fs q).fs = fs ∧
      (getFilePreview Config env fs q).trace = [] := by
  cases hw : Atoi q.width with
  | none =>
    simp only [getFilePreview, if_neg hcfg, hw]
    simp
  | some width =>
    have hh : Atoi q.height = none := by
      rcases hbad with h | h
      · rw [hw] at h; cases h
      · exact h
    simp only [getFilePreview, if_neg hcfg, hw, hh]
    simp

/-- Witness of C4 amended: the width value `abc`. -/
theorem getFilePreview_validation_witness :
    (getFilePreview cfgLocal (envOf photoPng) fsEmpty (qPhoto "abc" "100")).resp
        = Response.text 500
            (if Atoi (qPhoto "abc" "100").width = none then "incorrect width value"
              else "incorrect height value") ∧
      (getFilePreview cfgLocal (envOf photoPng) fsEmpty (qPhoto "abc" "100")).fs = fsEmpty ∧
      (getFilePreview cfgLocal (envOf photoPng) fsEmpty (qPhoto "abc" "100")).trace = [] :=
  getFilePreview_validation cfgLocal (envOf photoPng) fsEmpty (qPhoto "abc" "100")
    (by decide) (Or.inl (by decide))

/-! ## Size and dimension guard -/

/-- C3, as stated, fails: a request with width 3000 whose metadata lookup fails is answered with
`500 Access denied`, and with previews switched off it is answered with
`500 Previews not configured`; neither is the fallback icon. -/
theorem getFilePreview_guard_after_lookup :
    Atoi "3000".toList = some 3000 ∧
      (getFilePreview cfgLocal envDenied fsEmpty (qPhoto "3000" "100")).resp
        = Response.text 500 "Access denied" ∧
      (getFilePreview cfgNone (envOf photoPng) fsEmpty (qPhoto "3000" "100")).resp
        = Response.text 500 "Previews not configured" := by
  decide

/-- C3, amended: when previews are not switched off, width and height parse, the metadata lookup
succeeds and the file name has an extension, a request with size above 50*1000*1000 or width
above 2000 or height above 2000 is answered with the fallback icon of the file, no renderer is
called and the filesystem is unchanged; a request with size at most 50*1000*1000 and both
dimensions at most 2000 (the bounds included) is not caught and goes on to the cache lookup. -/
theorem getFilePreview_guard (Config : AppConfig) (env : Env) (fs : FS) (q : Query)
    (width height : Int) (info : File) (hcfg : Config.Preview ≠ "none".toList)
    (hw : Atoi q.width = some width) (hh : Atoi q.height = some height)
    (hinfo : env.info q.id = some info) (hext : Ext info.Name ≠ []) :
    ((info.Size > 50 * 1000 * 1000 ∨ width > 2000 ∨ height > 2000) →
        (getFilePreview Config env fs q).resp = Response.serveFile (iconPath fs info) ∧
        (getFilePreview Config env fs q).fs = fs ∧
        invokesRenderer (getFilePreview Config env fs q).trace = false) ∧
      ((info.Size ≤ 50000000 ∧ width ≤ 2000 ∧ height ≤ 2000) →
        getFilePreview Config env fs q = servePreview Config env fs q width height info) := by
  constructor
  · intro hg
    simp only [getFilePreview, if_neg hcfg, hw, hh, hinfo, if_pos hg,
      serveIconPreview_of_ext fs info hext]
    simp [invokesRenderer]
  · rintro ⟨hs, hwr, hhr⟩
    exact getFilePreview_inRange Config env fs q width height info hcfg hw hh hinfo
      (by omega) hwr hhr

/-- Witness of C3 amended: `/photo.png` at 2001x100 is caught, and a file of exactly 50000000
bytes at 2000x2000 is not. -/
theorem getFilePreview_guard_witness :
    ((getFilePreview cfgLocal (envOf photoPng) fsEmpty (qPhoto "2001" "100")).resp
        = Response.serveFile (iconPath fsEmpty photoPng) ∧
      (getFilePreview cfgLocal (envOf photoPng) fsEmpty (qPhoto "2001" "100")).fs = fsEmpty ∧
      invokesRenderer
        (getFilePreview cfgLocal (envOf photoPng) fsEmpty (qPhoto "2001" "100")).trace = false) ∧
      getFilePreview cfgLocal (envOf ⟨"photo.png".toList, 50000000, "image".toList⟩) fsEmpty
          (qPhoto "2000" "2000")
        = servePreview cfgLocal (envOf ⟨"photo.png".toList, 50000000, "image".toList⟩) fsEmpty
            (qPhoto "2000" "2000") 2000 2000 ⟨"photo.png".toList, 50000000, "image".toList⟩ :=
  ⟨(getFilePreview_guard cfgLocal (envOf photoPng) fsEmpty (qPhoto "2001" "100") 2001 100
      photoPng (by decide) (by decide) (by decide) rfl (by decide)).1 (Or.inr (Or.inl (by decide))),
   (getFilePreview_guard cfgLocal (envOf ⟨"photo.png".toList, 50000000, "image".toList⟩) fsEmpty
      (qPhoto "2000" "2000") 2000 2000 ⟨"photo.png".toList, 50000000, "image".toList⟩
      (by decide) (by decide) (by decide) rfl (by decide)).2 ⟨by decide, by decide, by decide⟩⟩

/-! ## External preview proxy -/

/-- C10, as stated, fails: a response with status 201 is within 200..299, yet
`getExternalPreview` returns the service error and writes nothing. -/
theorem getExternalPreview_rejects_201 :
    getExternalPreview cfgExternal (envService docPdf 201 "image/png".toList "img".toList) fsEmpty
        (some "content".toList) keyDoc "doc.pdf".toList "200".toList "200".toList
      = (([], some (Err.service 201 "img".toList)), fsEmpty) := by
  decide

/-- C10, amended: `getExternalPreview` fails on every response whose status code is not 200: it
returns an error carrying the status code and the response body and leaves the filesystem
unchanged; for a response with status 200 whose destination can be created and written it
returns no error, stores the response body at `preview + ext`, and `ext` is `.png` when the
content type is `image/png` and `.jpg` otherwise. -/
theorem getExternalPreview_status (Config : AppConfig) (env : Env) (fs : FS) (file : Option Str)
    (preview name width height : Str) (statusCode : Nat) (contentType body : Str)
    (hrun : (env.render Config.Preview file name width height).http
      = HttpOutcome.response statusCode contentType body) :
    (statusCode ≠ 200 →
        getExternalPreview Config env fs file preview name width height
          = (([], some (Err.service statusCode body)), fs)) ∧
      (statusCode = 200 →
        (env.render Config.Preview file name width height).createOk = true →
        (env.render Config.Preview file name width height).copyStop = none →
        (getExternalPreview Config env fs file preview name width height).1
            = (if contentType = "image/png".toList then ".png".toList else ".jpg".toList, none) ∧
          (getExternalPreview Config env fs file preview name width height).2.find
              (preview ++ if contentType = "image/png".toList then ".png".toList
                else ".jpg".toList)
            = some (Node.file body)) := by
  constructor
  · intro hs
    simp [getExternalPreview, hrun, hs]
  · intro hs hc hp
    simp [getExternalPreview, hrun, hs, hc, hp, find_store_same]

/-- Witness of C10 amended: a 503 response, and a 200 response of type `image/png`. -/
theorem getExternalPreview_status_witness :
    getExternalPreview cfgExternal (envService docPdf 503 [] "busy".toList) fsEmpty
          (some "content".toList) keyDoc "doc.pdf".toList "200".toList "200".toList
        = (([], some (Err.service 503 "busy".toList)), fsEmpty) ∧
      ((getExternalPreview cfgExternal (envService docPdf 200 "image/png".toList "img".toList)
          fsEmpty (some "content".toList) keyDoc "doc.pdf".toList "200".toList "200".toList).1
          = (if "image/png".toList = "image/png".toList then ".png".toList else ".jpg".toList,
              none) ∧
        (getExternalPreview cfgExternal (envService docPdf 200 "image/png".toList "img".toList)
          fsEmpty (some "content".toList) keyDoc "doc.pdf".toList "200".toList "200".toList).2.find
            (keyDoc ++ if "image/png".toList = "image/png".toList then ".png".toList
              else ".jpg".toList)
          = some (Node.file "img".toList)) :=
  ⟨(getExternalPreview_status cfgExternal (envService docPdf 503 [] "busy".toList) fsEmpty
      (some "content".toList) keyDoc "doc.pdf".toList "200".toList "200".toList 503 []
      "busy".toList rfl).1 (by decide),
   (getExternalPreview_status cfgExternal (envService docPdf 200 "image/png".toList "img".toList)
      fsEmpty (some "content".toList) keyDoc "doc.pdf".toList "200".toList "200".toList 200
      "image/png".toList "img".toList rfl).2 rfl rfl rfl⟩

/-! ## Cache lookup -/

/-- C5: a placeholder found by the cache lookup does not always lead to the fallback icon. With
the zero-length entry for `/Makefile` at 100x100 in place, the lookup finds it, no renderer runs
and the filesystem is unchanged, but the handler panics in `serveIconPreview`. -/
theorem getFilePreview_placeholder_panics_without_extension :
    fsPlaceholder.stat "/data/.preview/Makefile___100x100.jpg".toList = some 0 ∧
      (getFilePreview cfgLocal (envOf makefile) fsPlaceholder qMakefile).resp = Response.panic ∧
      (getFilePreview cfgLocal (envOf makefile) fsPlaceholder qMakefile).fs = fsPlaceholder ∧
      (getFilePreview cfgLocal (envOf makefile) fsPlaceholder qMakefile).trace
        = [Event.info qMakefile.id] := by
  decide

theorem servePreview_hit (Config : AppConfig) (env : Env) (fs : FS) (q : Query)
    (width height : Int) (info : File) (k : Key)
    (hkey : cacheKey Config.Root q.id q.width q.height = some k)
    (hit : fs.stat (k.preview ++ ".jpg".toList) ≠ none ∨
      fs.stat (k.preview ++ ".png".toList) ≠ none) :
    (servePreview Config env fs q width height info).fs = fs ∧
      (servePreview Config env fs q width height info).trace = [Event.info q.id] := by
  simp only [servePreview, hkey]
  cases hj : fs.stat (k.preview ++ ".jpg".toList) with
  | some size => by_cases h0 : size = 0 <;> simp [h0]
  | none =>
    cases hp : fs.stat (k.preview ++ ".png".toList) with
    | some size => by_cases h0 : size = 0 <;> simp [h0]
    | none =>
      rcases hit with h | h
      · exact absurd hj h
      · exact absurd hp h

theorem getFilePreview_hit_no_renderer (Config : AppConfig) (env : Env) (fs : FS) (q : Query)
    (k : Key) (hkey : cacheKey Config.Root q.id q.width q.height = some k)
    (hit : fs.stat (k.preview ++ ".jpg".toList) ≠ none ∨
      fs.stat (k.preview ++ ".png".toList) ≠ none) :
    invokesRenderer (getFilePreview Config env fs q).trace = false := by
  unfold getFilePreview
  split
  · rfl
  · split
    · rfl
    · split
      · rfl
      · split
        · rfl
        · split
          · rfl
          · rw [(servePreview_hit Config env fs q _ _ _ k hkey hit).2]
            rfl

theorem generate_success (Config : AppConfig) (env : Env) (fs : FS) (q : Query)
    (width height : Int) (info : File) (k : Key)
    (hok : (generate Config env fs q width height info k).err = none) :
    ((generate Config env fs q width height info k).ext = ".jpg".toList ∨
        (generate Config env fs q width height info k).ext = ".png".toList) ∧
      ∃ body, (generate Config env fs q width height info k).fs.find
        (k.preview ++ (generate Config env fs q width height info k).ext)
          = some (Node.file body) := by
  unfold generate at hok ⊢
  by_cases hp : Config.Preview ≠ []
  · simp only [if_pos hp] at hok ⊢
    unfold getExternalPreview at hok ⊢
    cases hh : (env.render Config.Preview (env.read q.id) k.name q.width q.height).http with
    | badRequest => simp [hh] at hok
    | transport => simp [hh] at hok
    | response statusCode contentType body =>
      simp only [hh] at hok ⊢
      by_cases hs : statusCode ≠ 200
      · simp [hs] at hok
      · simp only [if_neg hs] at hok ⊢
        by_cases hc : (env.render Config.Preview (env.read q.id) k.name q.width q.height).createOk
            = false
        · simp [hc] at hok
        · simp only [if_neg hc] at hok ⊢
          cases hcp : (env.render Config.Preview (env.read q.id) k.name q.width q.height).copyStop
            with
          | some n => simp [hcp] at hok
          | none =>
            simp only [hcp]
            refine ⟨?_, body, find_store_same _ _ _⟩
            by_cases hct : contentType = "image/png".toList
            · right; simp [hct]
            · left; simp only [if_neg hct]
  · simp only [if_neg hp] at hok ⊢
    by_cases ht : info.Type_ = "image".toList
    · simp only [if_pos ht] at hok ⊢
      unfold getImagePreview at hok ⊢
      cases hi : env.imaging k.source width height with
      | openFailed => simp [hi] at hok
      | saveFailed left => cases left <;> simp [hi] at hok
      | saved jpeg =>
        simp only [hi]
        exact ⟨by simp, jpeg, find_store_same _ _ _⟩
    · simp only [if_neg ht] at hok
      simp at hok

/-- Cache lookup for a file whose name has an extension: the entry found (`.jpg` first, `.png`
only when `.jpg` is absent) is served when its size is positive and replaced by the fallback icon
when its size is zero; the filesystem is unchanged and only the metadata lookup is made. -/
theorem getFilePreview_lookup (Config : AppConfig) (env : Env) (fs : FS) (q : Query)
    (width height : Int) (info : File) (k : Key) (size : Nat) (ext : Str)
    (hcfg : Config.Preview ≠ "none".toList)
    (hw : Atoi q.width = some width) (hh : Atoi q.height = some height)
    (hinfo : env.info q.id = some info) (hs : info.Size ≤ 50 * 1000 * 1000)
    (hwr : width ≤ 2000) (hhr : height ≤ 2000)
    (hkey : cacheKey Config.Root q.id q.width q.height = some k)
    (hext : Ext info.Name ≠ [])
    (hfound : (fs.stat (k.preview ++ ".jpg".toList) = some size ∧ ext = ".jpg".toList) ∨
      (fs.stat (k.preview ++ ".jpg".toList) = none ∧
        fs.stat (k.preview ++ ".png".toList) = some size ∧ ext = ".png".toList)) :
    (getFilePreview Config env fs q).resp
        = (if size = 0 then Response.serveFile (iconPath fs info)
            else Response.serveFile (k.preview ++ ext)) ∧
      (getFilePreview Config env fs q).fs = fs ∧
      (getFilePreview Config env fs q).trace = [Event.info q.id] := by
  rw [getFilePreview_inRange Config env fs q width height info hcfg hw hh hinfo hs hwr hhr]
  simp only [servePreview, hkey]
  rcases hfound with ⟨hj, rfl⟩ | ⟨hj, hp, rfl⟩
  · simp only [hj, serveIconPreview_of_ext fs info hext]
    by_cases h0 : size = 0 <;> simp [h0]
  · simp only [hj, hp, serveIconPreview_of_ext fs info hext]
    by_cases h0 : size = 0 <;> simp [h0]

/-- When no render endpoint is configured and the file is not an image, no renderer runs and the
error of the failed probe is still set after lines 93-106. -/
theorem generate_no_renderer (Config : AppConfig) (env : Env) (fs : FS) (q : Query)
    (width height : Int) (info : File) (k : Key) (hp : Config.Preview = [])
    (ht : info.Type_ ≠ "image".toList) :
    (generate Config env fs q width height info k).err = some Err.stat ∧
      (generate Config env fs q width height info k).trace = [] := by
  have hp2 : ¬ Config.Preview ≠ [] := fun h => h hp
  simp only [generate, if_neg hp2, if_neg ht, and_self]

/-- Generation failure for a file whose name has an extension: after a cache miss, whenever
lines 93-106 end with an error and the placeholder can be written, the zero-length placeholder is
at `preview + ".jpg"` and the fallback icon is served. -/
theorem getFilePreview_failure (Config : AppConfig) (env : Env) (fs : FS) (q : Query)
    (width height : Int) (info : File) (k : Key) (e : Err)
    (hcfg : Config.Preview ≠ "none".toList)
    (hw : Atoi q.width = some width) (hh : Atoi q.height = some height)
    (hinfo : env.info q.id = some info) (hs : info.Size ≤ 50 * 1000 * 1000)
    (hwr : width ≤ 2000) (hhr : height ≤ 2000)
    (hkey : cacheKey Config.Root q.id q.width q.height = some k)
    (hjpg : fs.stat (k.preview ++ ".jpg".toList) = none)
    (hpng : fs.stat (k.preview ++ ".png".toList) = none)
    (hext : Ext info.Name ≠ [])
    (hfail : (generate Config env fs q width height info k).err = some e)
    (hwrite : env.writeFileOk (k.preview ++ ".jpg".toList) = true) :
    (getFilePreview Config env fs q).fs.find (k.preview ++ ".jpg".toList)
        = some (Node.file []) ∧
      (getFilePreview Config env fs q).resp
        = Response.serveFile (iconPath (getFilePreview Config env fs q).fs info) ∧
      (getFilePreview Config env fs q).trace
        = Event.info q.id :: (generate Config env fs q width height info k).trace := by
  rw [getFilePreview_inRange Config env fs q width height info hcfg hw hh hinfo hs hwr hhr]
  simp only [servePreview, hkey, hjpg, hpng, hfail, hwrite, writeFile_accepted,
    serveIconPreview_of_ext _ info hext, find_store_same, and_self]

/-! ## Idempotent caching -/

/-- The errors of `os.Mkdir` (line 94) and `ioutil.WriteFile` (line 110) are dropped. With a
regular file at `/data/.preview` the folder cannot be created and nothing can be written below
it: after the first request for `/doc.pdf` (render service answering 503) the filesystem is
unchanged, no entry exists for the key, and a second identical request calls the renderer
again. -/
theorem getFilePreview_drops_write_errors :
    (getFilePreview cfgExternal (envBlocked docPdf 503 [] "busy".toList) fsBlocked qDoc).fs
        = fsBlocked ∧
      fsBlocked.stat (keyOfDoc.preview ++ ".jpg".toList) = none ∧
      fsBlocked.stat (keyOfDoc.preview ++ ".png".toList) = none ∧
      invokesRenderer (getFilePreview cfgExternal (envBlocked docPdf 503 [] "busy".toList)
        (getFilePreview cfgExternal (envBlocked docPdf 503 [] "busy".toList) fsBlocked qDoc).fs
        qDoc).trace = true := by
  decide

/-- C6, as stated, fails: when the render service answers 200 with content type `image/png` and
an empty body, the first request leaves a zero-length file at `preview + ".png"`; afterwards
there is neither a positive entry nor a zero-length file at `preview + ".jpg"`. -/
theorem getFilePreview_empty_png_entry :
    cacheKey cfgExternal.Root qDoc.id qDoc.width qDoc.height = some keyOfDoc ∧
      (getFilePreview cfgExternal (envService docPdf 200 "image/png".toList []) fsEmpty qDoc).fs.find
        (keyOfDoc.preview ++ ".png".toList) = some (Node.file []) ∧
      positiveEntry
        (getFilePreview cfgExternal (envService docPdf 200 "image/png".toList []) fsEmpty qDoc).fs
        keyOfDoc.preview = false ∧
      negativePlaceholder
        (getFilePreview cfgExternal (envService docPdf 200 "image/png".toList []) fsEmpty qDoc).fs
        keyOfDoc.preview = false := by
  decide

/-- C6, amended: for a request with previews not switched off, `0 < width, height <= 2000`,
source size at most 50*1000*1000 and a defined cache key, on a filesystem that accepts the write
of the placeholder at `preview + ".jpg"`, starting with no entry at `preview + ".jpg"` and
`preview + ".png"`: after the first request an entry exists for the key, a zero-length file at
`preview + ".jpg"`, or the file written by the renderer at `preview + ".jpg"` or
`preview + ".png"`, which is the file served; and a second identical request on the resulting
filesystem calls no renderer, whatever the collaborators and the filesystem do then. -/
theorem getFilePreview_caches (Config : AppConfig) (env : Env) (fs : FS) (q : Query)
    (width height : Int) (info : File) (k : Key) (hcfg : Config.Preview ≠ "none".toList)
    (hw : Atoi q.width = some width) (hh : Atoi q.height = some height)
    (hinfo : env.info q.id = some info) (_hwpos : 0 < width) (_hhpos : 0 < height)
    (hwr : width ≤ 2000) (hhr : height ≤ 2000) (hs : info.Size ≤ 50 * 1000 * 1000)
    (hkey : cacheKey Config.Root q.id q.width q.height = some k)
    (hjpg : fs.stat (k.preview ++ ".jpg".toList) = none)
    (hpng : fs.stat (k.preview ++ ".png".toList) = none)
    (hwrite : env.writeFileOk (k.preview ++ ".jpg".toList) = true) :
    ((getFilePreview Config env fs q).fs.stat (k.preview ++ ".jpg".toList) = some 0 ∨
        ∃ ext body, (ext = ".jpg".toList ∨ ext = ".png".toList) ∧
          (getFilePreview Config env fs q).resp = Response.serveFile (k.preview ++ ext) ∧
          (getFilePreview Config env fs q).fs.find (k.preview ++ ext) = some (Node.file body)) ∧
      ∀ env2 : Env,
        invokesRenderer (getFilePreview Config env2 (getFilePreview Config env fs q).fs q).trace
          = false := by
  rw [getFilePreview_inRange Config env fs q width height info hcfg hw hh hinfo hs hwr hhr]
  have hA : (servePreview Config env fs q width height info).fs.stat
        (k.preview ++ ".jpg".toList) = some 0 ∨
      ∃ ext body, (ext = ".jpg".toList ∨ ext = ".png".toList) ∧
        (servePreview Config env fs q width height info).resp
          = Response.serveFile (k.preview ++ ext) ∧
        (servePreview Config env fs q width height info).fs.find (k.preview ++ ext)
          = some (Node.file body) := by
    simp only [servePreview, hkey, hjpg, hpng, hwrite, writeFile_accepted]
    cases hg : (generate Config env fs q width height info k).err with
    | some e =>
      left
      exact stat_store_same _ _ _
    | none =>
      right
      obtain ⟨hext, body, hb⟩ := generate_success Config env fs q width height info k hg
      exact ⟨_, body, hext, rfl, hb⟩
  refine ⟨hA, fun env2 => getFilePreview_hit_no_renderer Config env2 _ q k hkey ?_⟩
  rcases hA with h | ⟨ext, body, hext, _, hb⟩
  · left
    rw [h]
    exact Option.some_ne_none 0
  · rcases hext with rfl | rfl
    · left
      simp only [FS.stat, hb]
      exact Option.some_ne_none _
    · right
      simp only [FS.stat, hb]
      exact Option.some_ne_none _

/-- Witness of C6 amended: `/doc.pdf` at 200x200 with a render service answering 503. -/
theorem getFilePreview_caches_witness :
    ((getFilePreview cfgExternal (envService docPdf 503 [] "busy".toList) fsEmpty qDoc).fs.stat
          (keyOfDoc.preview ++ ".jpg".toList) = some 0 ∨
        ∃ ext body, (ext = ".jpg".toList ∨ ext = ".png".toList) ∧
          (getFilePreview cfgExternal (envService docPdf 503 [] "busy".toList) fsEmpty qDoc).resp
            = Response.serveFile (keyOfDoc.preview ++ ext) ∧
          (getFilePreview cfgExternal (envService docPdf 503 [] "busy".toList) fsEmpty qDoc).fs.find
            (keyOfDoc.preview ++ ext) = some (Node.file body)) ∧
      ∀ env2 : Env,
        invokesRenderer (getFilePreview cfgExternal env2
          (getFilePreview cfgExternal (envService docPdf 503 [] "busy".toList) fsEmpty qDoc).fs
          qDoc).trace = false :=
  getFilePreview_caches cfgExternal (envService docPdf 503 [] "busy".toList) fsEmpty qDoc 200 200
    docPdf keyOfDoc (by decide) (by decide) (by decide) rfl (by decide) (by decide) (by decide)
    (by decide) (by decide) (by decide) (by decide) (by decide) rfl

end Filemanager
